import Mathlib

/-!
Verification of the `fn routes` command core (src/fn/routes.go): the
partial-update merge engine (`patchRoute`), the flag/descriptor precedence
logic of `update` and `create`, and their error classification.

Modelling conventions:
* Go maps that are read by key (the fetched route state) are embedded as
  partial functions `String → Option β` (`StrMap β`).
* Go maps that are iterated (the delta maps in `patchRoute`) are embedded as
  association lists: Go map iteration order is unspecified, so the list order
  stands for one iteration order, and order-sensitive statements quantify
  over permutations.
* A Go panic (index out of range on `k[0]`, nil funcfile dereference,
  missing `=` in a header flag) is modelled as `Option.none` / a dedicated
  `panicked` result, never as a value.
* Machine integers (`int64`, `int32`, `time.Duration`) are embedded as `Int`;
  the one relevant narrowing, `int32(maxC)`, is modelled explicitly by
  `int32cast`. `time.Duration` values are nanosecond counts; the conversion
  `int64(d.Seconds())` truncates toward zero, modelled by `Int.tdiv`
  (the intermediate float64 rounding cannot change the truncated value for
  the magnitudes handled here).
* The remote API client is an external collaborator: the fetch result and
  the replace/post outcome are inputs of the model.
-/

/-- A Go `map[string]V` read by key, as a partial function. -/
def StrMap (β : Type) : Type := String → Option β

namespace StrMap

/-- The empty map (`map[string]V{}`). -/
def empty {β : Type} : StrMap β := fun _ => none

/-- Go `m[k] = v`. -/
def insert {β : Type} (m : StrMap β) (k : String) (v : β) : StrMap β :=
  fun q => if q = k then some v else m q

/-- Go `delete(m, k)` (a no-op when `k` is absent). -/
def erase {β : Type} (m : StrMap β) (k : String) : StrMap β :=
  fun q => if q = k then none else m q

/-- Build a map from an association list, later entries overwriting. -/
def ofList {β : Type} (l : List (String × β)) : StrMap β :=
  l.foldl (fun m kv => m.insert kv.1 kv.2) empty

end StrMap

/-- Go `string(k[1:])` in the deletion branch of the config merge: the key
starts with the one-byte character `-`, so dropping one byte drops exactly
the first character. -/
def stripDash (k : String) : String := String.mk k.data.tail

/-- The merge loop of `patchRoute` (routes.go:400-406 for config,
routes.go:409-415 for headers), generic in the key that the deletion branch
removes: the config loop removes `string(k[1:])`, the headers loop removes
`k` itself. A key whose byte string is empty makes Go panic on `k[0]`
(index out of range); this is the `none` result. The test
`string(k[0]) == "-"` compares the first byte; the byte 0x2D occurs in UTF-8
only as the standalone character `-`, so it equals the first-character test. -/
def mergeGo {β : Type} (delKey : String → String) (cur : StrMap β) :
    List (String × β) → Option (StrMap β)
  | [] => some cur
  | (k, v) :: rest =>
    match k.data with
    | [] => none
    | c :: _ =>
      if c = '-' then mergeGo delKey (cur.erase (delKey k)) rest
      else mergeGo delKey (cur.insert k v) rest

/-- routes.go:400-406: the config merge; the deletion branch removes the
stripped key `string(k[1:])`. -/
def configMerge : StrMap String → List (String × String) → Option (StrMap String) :=
  mergeGo stripDash

/-- routes.go:409-415: the headers merge; the deletion branch executes
`delete(resp.Payload.Route.Headers, k)` on the UNstripped key `k`. -/
def headersMerge : StrMap (List String) → List (String × List String) → Option (StrMap (List String)) :=
  mergeGo (fun k => k)

/-- Go `int32(n)`: two-complement narrowing of an `int` to 32 bits. -/
def int32cast (n : Int) : Int := (n + 2147483648) % 4294967296 - 2147483648

/-- Go `int64(d.Seconds())` for a `time.Duration` of `d` nanoseconds:
division by 1e9 truncated toward zero. -/
def durToSecs (d : Int) : Int := d.tdiv 1000000000

/-- The fields of `fnmodels.Route` that routes.go reads or writes.
`config`/`headers` are `Option` to model nil Go maps; `timeout` models the
`*int64` pointer. -/
structure Route where
  path : String
  image : String
  memory : Int
  rtype : String
  format : String
  maxConcurrency : Int
  timeout : Option Int
  config : Option (StrMap String)
  headers : Option (StrMap (List String))

/-- The delta `*fnmodels.Route` handed to `patchRoute`: its maps are
iterated, so they enter the model as association lists (one iteration
order of the Go map). -/
structure RouteDelta where
  image : String := ""
  memory : Int := 0
  rtype : String := ""
  config : Option (List (String × String)) := none
  headers : Option (List (String × List String)) := none
  format : String := ""
  maxConcurrency : Int := 0
  timeout : Option Int := none

/-- Outcomes of `GetAppsAppRoutesRoute` as classified by the type switch at
routes.go:380-386. `listDefault` is the `GetAppsAppRoutesDefault` case
written at routes.go:383; `other` is the fall-through
`fmt.Errorf("unexpected error: %v", err)` carrying the rendering of the
error value. -/
inductive FetchErr
  | notFound (msg : String)
  | listDefault (msg : String)
  | other (rendered : String)

/-- The error message `patchRoute` returns for a failed fetch
(routes.go:380-386). -/
def fetchErrMsg : FetchErr → String
  | .notFound m => "error: " ++ m
  | .listDefault m => "unexpected error: " ++ m
  | .other r => "unexpected error: " ++ r

/-- Outcomes of `PatchAppsAppRoutesRoute` as classified at
routes.go:445-453. -/
inductive ReplaceErr
  | badRequest (msg : String)
  | notFound (msg : String)
  | defaultErr (msg : String)
  | other (rendered : String)

/-- The error message `patchRoute` returns for a failed replace
(routes.go:445-453). -/
def replaceErrMsg : ReplaceErr → String
  | .badRequest m => "error: " ++ m
  | .notFound m => "error: " ++ m
  | .defaultErr m => "unexpected error: " ++ m
  | .other r => "unexpected error: " ++ r

/-- Result of one `patchRoute` invocation. `submitted` records the payload
handed to the replace call together with the call result; `errored` is an
error return before the replace call; `panicked` is a Go runtime panic
inside the merge loop. -/
inductive PatchResult
  | errored (msg : String)
  | panicked
  | submitted (payload : Route) (result : Except String Unit)

/-- The payload of a submitted result, if any. -/
def PatchResult.payload : PatchResult → Option Route
  | .submitted p _ => some p
  | _ => none

/-- routes.go:389-397: initialize nil config/headers to empty maps and
clear the path before the merge. -/
def normalizeRoute (r : Route) : Route :=
  { r with
    config := some (r.config.getD StrMap.empty),
    headers := some (r.headers.getD StrMap.empty),
    path := "" }

/-- routes.go:437-454: hand the payload to the replace call and classify
its outcome. -/
def submitR (payload : Route) (replace : Route → Option ReplaceErr) : PatchResult :=
  .submitted payload
    (match replace payload with
     | none => .ok ()
     | some e => .error (replaceErrMsg e))

/-- routes.go:372-457, `patchRoute`: fetch (its result is the `fetch`
input), normalize, merge the delta, submit. -/
def patchRoute (fetch : Except FetchErr Route) (delta : Option RouteDelta)
    (replace : Route → Option ReplaceErr) : PatchResult :=
  match fetch with
  | .error e => .errored (fetchErrMsg e)
  | .ok r0 =>
    let r1 := normalizeRoute r0
    let cfg0 := r1.config.getD StrMap.empty
    let hdr0 := r1.headers.getD StrMap.empty
    match delta with
    | none => submitR r1 replace
    | some d =>
      match (match d.config with
             | none => some cfg0
             | some dc => configMerge cfg0 dc) with
      | none => .panicked
      | some cfg1 =>
        match (match d.headers with
               | none => some hdr0
               | some dh => headersMerge hdr0 dh) with
        | none => .panicked
        | some hdr1 =>
          submitR
            { r1 with
              config := some cfg1,
              headers := some hdr1,
              image := if d.image ≠ "" then d.image else r1.image,
              format := if d.format ≠ "" then d.format else r1.format,
              rtype := if d.rtype ≠ "" then d.rtype else r1.rtype,
              maxConcurrency :=
                if d.maxConcurrency > 0 then d.maxConcurrency else r1.maxConcurrency,
              memory := if d.memory > 0 then d.memory else r1.memory,
              timeout := match d.timeout with
                         | some t => some t
                         | none => r1.timeout }
            replace

/-- The funcfile fields routes.go reads (`FullName()`, `Format`,
`maxConcurrency`, `Timeout`, `path`). The funcfile loader lives outside
src/fn/routes.go, so a loaded funcfile is an input of the model. -/
structure Funcfile where
  fullName : String
  format : Option String
  maxConcurrency : Option Int
  timeout : Option Int
  path : Option String

/-- Result of `loadFuncfile()`: a funcfile, a `*notFoundError`, or another
error. -/
inductive FFResult
  | found (ff : Funcfile)
  | notFound
  | failed (msg : String)

/-- Result of the pre-network part of `update`/`create`. -/
inductive PrepResult (α : Type)
  | errored (msg : String)
  | panicked
  | ok (val : α)

/-- The delta a successful `update` preparation hands to `patchRoute`. -/
def PrepResult.deltaOf : PrepResult (String × RouteDelta) → Option RouteDelta
  | .ok (_, d) => some d
  | _ => none

/-- routes.go:517-521: parse the `--headers` flags. `strings.Split(h, "=")`
followed by `parts[1]` panics (index out of range) when the flag has no
`=`; `parts[1]` is then split on `;`. Later duplicates of a key overwrite
earlier ones exactly as the Go map build does, because the subsequent merge
inserts in list order. -/
def parseHeaders : List String → Option (List (String × List String))
  | [] => some []
  | s :: rest =>
    match s.splitOn "=" with
    | k :: v :: _ => (parseHeaders rest).map (fun t => (k, v.splitOn ";") :: t)
    | _ => none

/-- routes.go:459-535, `update`, up to the `patchRoute` call: resolve the
image, format, max-concurrency, timeout and route from the positional
arguments, the funcfile and the flags, and build the delta. The positional
arguments `route`/`image` are `c.Args().Get(1)`/`Get(2)`; each flag input
is the value the `cli` context returns (zero value when the flag is
absent). When `loadFuncfile` reports not-found and an image argument is
present, Go continues with a nil `ff` and dereferences it at
routes.go:485; that runtime failure (decided by code outside
src/fn/routes.go) is modelled as `panicked`. -/
def updatePrep (route image : String) (ff : FFResult)
    (memoryFlag : Int) (typeFlag : String)
    (configFlag : Option (List (String × String))) (headerFlags : List String)
    (formatFlag : String) (maxCFlag : Int) (timeoutFlag : Int) :
    PrepResult (String × RouteDelta) :=
  match ff with
  | .failed msg => .errored msg
  | .notFound =>
    if image = "" then .errored "error: image name is missing or no function file found"
    else .panicked
  | .found f =>
    let image1 := if image ≠ "" then f.fullName else image
    let format1 := f.format.getD ""
    let maxC1 := f.maxConcurrency.getD 0
    let timeout1 := f.timeout.getD 0
    let route1 := if route = "" then f.path.getD "" else route
    if route1 = "" then .errored "error: route path is missing"
    else
      let format2 := if formatFlag ≠ "" then formatFlag else format1
      let maxC2 := if maxCFlag > 0 then maxCFlag else maxC1
      let timeout2 := if timeoutFlag > 0 then timeoutFlag else timeout1
      match parseHeaders headerFlags with
      | none => .panicked
      | some hdrs =>
        .ok (route1,
          { image := image1,
            memory := memoryFlag,
            rtype := typeFlag,
            config := configFlag,
            headers := some hdrs,
            format := format2,
            maxConcurrency := int32cast maxC2,
            timeout := some (durToSecs timeout2) })

/-- `update` composed with `patchRoute` (routes.go:535). -/
def updateGo (route image : String) (ff : FFResult)
    (memoryFlag : Int) (typeFlag : String)
    (configFlag : Option (List (String × String))) (headerFlags : List String)
    (formatFlag : String) (maxCFlag : Int) (timeoutFlag : Int)
    (fetch : Except FetchErr Route) (replace : Route → Option ReplaceErr) : PatchResult :=
  match updatePrep route image ff memoryFlag typeFlag configFlag headerFlags
      formatFlag maxCFlag timeoutFlag with
  | .errored msg => .errored msg
  | .panicked => .panicked
  | .ok (_, d) => patchRoute fetch (some d) replace

/-- routes.go:319-347: the checks and body construction shared by both
arms of `create` (with or without a funcfile). -/
def createFinish (route image : String) (format0 : String) (maxC0 timeout0 : Int)
    (memoryFlag : Int) (typeFlag : String) (configFlag : Option (List (String × String)))
    (formatFlag : String) (maxCFlag : Int) (timeoutFlag : Int) : PrepResult Route :=
  if route = "" then .errored "error: route path is missing"
  else if image = "" then .errored "error: function image name is missing"
  else
    let format := if formatFlag ≠ "" then formatFlag else format0
    let maxC := if maxCFlag > 0 then maxCFlag else maxC0
    let timeout := if timeoutFlag > 0 then timeoutFlag else timeout0
    .ok
      { path := route,
        image := image,
        memory := memoryFlag,
        rtype := typeFlag,
        format := format,
        maxConcurrency := int32cast maxC,
        timeout := some (durToSecs timeout),
        config := configFlag.map StrMap.ofList,
        headers := none }

/-- routes.go:281-348, `create`, up to the POST call: the funcfile is
consulted only when the image argument is empty (routes.go:295). -/
def createPrep (route image : String) (ff : FFResult)
    (memoryFlag : Int) (typeFlag : String) (configFlag : Option (List (String × String)))
    (formatFlag : String) (maxCFlag : Int) (timeoutFlag : Int) : PrepResult Route :=
  if image = "" then
    match ff with
    | .notFound => .errored "error: image name is missing or no function file found"
    | .failed msg => .errored msg
    | .found f =>
      createFinish (if route = "" then f.path.getD "" else route) f.fullName
        (f.format.getD "") (f.maxConcurrency.getD 0) (f.timeout.getD 0)
        memoryFlag typeFlag configFlag formatFlag maxCFlag timeoutFlag
  else
    createFinish route image "" 0 0
      memoryFlag typeFlag configFlag formatFlag maxCFlag timeoutFlag

/-! ### Pointwise characterization of the merge loop -/

/-- The write (if any) that one delta entry performs at map key `q`: the
deletion branch writes `none` at `delKey k`, the insertion branch writes
`some v` at `k`. -/
def writeAt {β : Type} (delKey : String → String) (kv : String × β) (q : String) :
    Option (Option β) :=
  match kv.1.data with
  | [] => none
  | c :: _ =>
    if c = '-' then (if delKey kv.1 = q then some none else none)
    else if kv.1 = q then some (some kv.2) else none

/-- The keys of a Go map are distinct; the delta enumeration inherits this. -/
abbrev KeysNodup {β : Type} (d : List (String × β)) : Prop :=
  (d.map Prod.fst).Nodup

/-- The caller-responsibility condition of the spec: no deletion entry
targets the key of an insertion entry of the same delta. -/
abbrev NoConflict {β : Type} (delKey : String → String) (d : List (String × β)) : Prop :=
  ∀ a ∈ d, ∀ b ∈ d, a.1.data.head? = some '-' → b.1.data.head? ≠ some '-' →
    delKey a.1 ≠ b.1

/-! ### Concrete fixtures used by counterexamples and witnesses -/

/-- A fetched route with one config entry and one header entry. -/
def exRoute1 : Route :=
  { path := "/p", image := "img", memory := 128, rtype := "sync", format := "",
    maxConcurrency := 1, timeout := some 30,
    config := some (StrMap.empty.insert "a" "1"),
    headers := some (StrMap.empty.insert "k" ["v"]) }

/-- A delta asking to delete config key `a` and header key `k`. -/
def exDelta1 : RouteDelta :=
  { config := some [("-a", "")], headers := some [("-k", [])] }

/-- A fetched route with an existing image. -/
def exRoute4 : Route :=
  { path := "/p", image := "existing", memory := 128, rtype := "sync", format := "",
    maxConcurrency := 1, timeout := some 30,
    config := some StrMap.empty, headers := some StrMap.empty }

/-- A funcfile whose full image name is `ffimg`. -/
def exFF3 : Funcfile :=
  { fullName := "ffimg", format := none, maxConcurrency := none,
    timeout := none, path := none }

/-- A funcfile that yields an empty image name. -/
def exFF4empty : Funcfile :=
  { fullName := "", format := none, maxConcurrency := none,
    timeout := none, path := none }

/-- A funcfile carrying format `json`, max concurrency 2 and a 30s timeout. -/
def exFF6 : Funcfile :=
  { fullName := "img", format := some "json", maxConcurrency := some 2,
    timeout := some 30000000000, path := none }

/-- A fetched route with a 30-second timeout. -/
def exRoute5c : Route :=
  { path := "/p", image := "img", memory := 128, rtype := "sync", format := "",
    maxConcurrency := 1, timeout := some 30,
    config := some StrMap.empty, headers := some StrMap.empty }

/-- A delta whose timeout pointer is non-nil and holds zero. -/
def exDelta5c : RouteDelta := { timeout := some 0 }

/-- A fetched route with a 7-second timeout and nil maps. -/
def exRoute5w : Route :=
  { path := "/p", image := "i", memory := 1, rtype := "sync", format := "",
    maxConcurrency := 1, timeout := some 7, config := none, headers := none }

/-- The all-zero delta (every field unset, both maps nil). -/
def exDelta5w : RouteDelta := {}

/-- The payload `patchRoute` submits for `exRoute5w` under `exDelta5w`. -/
def exPayload5w : Route :=
  { path := "", image := "i", memory := 1, rtype := "sync", format := "",
    maxConcurrency := 1, timeout := some 7,
    config := some StrMap.empty, headers := some StrMap.empty }

/-- A fetched route with nil config and headers maps. -/
def exRoute7 : Route :=
  { path := "/p", image := "img", memory := 64, rtype := "async", format := "http",
    maxConcurrency := 3, timeout := some 10, config := none, headers := none }

/-- A fetched route used by the empty-key panic scenarios. -/
def exRoute10 : Route :=
  { path := "/p", image := "img", memory := 128, rtype := "sync", format := "",
    maxConcurrency := 1, timeout := some 30,
    config := some (StrMap.empty.insert "a" "1"),
    headers := some (StrMap.empty.insert "k" ["v"]) }

/-- A delta whose config map contains the empty string as a key. -/
def exDelta10cfg : RouteDelta := { config := some [("", "v")] }

/-- A delta whose headers map contains the empty string as a key. -/
def exDelta10hdr : RouteDelta := { headers := some [("", [])] }

lemma getLast?_cons_getD {α : Type} (w : α) (l : List α) (dflt : α) :
    ((w :: l).getLast?).getD dflt = (l.getLast?).getD w := by
  cases l with
  | nil => simp
  | cons b bs =>
    rw [List.getLast?_cons_cons]
    have h : ((b :: bs).getLast?).isSome := by
      rw [List.getLast?_isSome]
      simp
    cases hgl : (b :: bs).getLast? with
    | none => rw [hgl] at h; simp at h
    | some x => simp

/-- A successful merge is, at each key, the last write of the delta at that
key, defaulting to the current value. -/
lemma mergeGo_char {β : Type} (delKey : String → String) (d : List (String × β)) :
    ∀ (cur m : StrMap β), mergeGo delKey cur d = some m → ∀ q,
      m q = ((d.filterMap (fun kv => writeAt delKey kv q)).getLast?).getD (cur q) := by
  induction d with
  | nil =>
    intro cur m h q
    simp only [mergeGo] at h
    cases h
    simp
  | cons kv rest ih =>
    intro cur m h q
    obtain ⟨k, v⟩ := kv
    cases hk : k.data with
    | nil =>
      simp only [mergeGo, hk] at h
      exact Option.noConfusion h
    | cons c cs =>
      simp only [mergeGo, hk] at h
      by_cases hc : c = '-'
      · rw [if_pos hc] at h
        have hrec := ih _ _ h q
        by_cases hdel : delKey k = q
        · have hw : writeAt delKey (k, v) q = some none := by
            simp [writeAt, hk, hc, hdel]
          have hcur : (cur.erase (delKey k)) q = none := by
            simp [StrMap.erase, hdel]
          rw [hrec, hcur]
          simp only [List.filterMap_cons, hw]
          rw [getLast?_cons_getD]
        · have hw : writeAt delKey (k, v) q = none := by
            simp [writeAt, hk, hc, hdel]
          have hcur : (cur.erase (delKey k)) q = cur q := by
            simp only [StrMap.erase]
            rw [if_neg (fun hq => hdel hq.symm)]
          rw [hrec, hcur]
          simp only [List.filterMap_cons, hw]
      · rw [if_neg hc] at h
        have hrec := ih _ _ h q
        by_cases hkq : k = q
        · subst hkq
          have hw : writeAt delKey (k, v) k = some (some v) := by
            simp [writeAt, hk, hc]
          have hcur : (cur.insert k v) k = some v := by
            simp [StrMap.insert]
          rw [hrec, hcur]
          simp only [List.filterMap_cons, hw]
          rw [getLast?_cons_getD]
        · have hw : writeAt delKey (k, v) q = none := by
            simp [writeAt, hk, hc, hkq]
          have hcur : (cur.insert k v) q = cur q := by
            simp only [StrMap.insert]
            rw [if_neg (fun hq => hkq hq.symm)]
          rw [hrec, hcur]
          simp only [List.filterMap_cons, hw]

/-- The merge succeeds on any delta all of whose keys are non-empty. -/
lemma mergeGo_isSome_of_keys {β : Type} (delKey : String → String)
    (d : List (String × β)) (h : ∀ kv ∈ d, kv.1.data ≠ []) :
    ∀ cur, (mergeGo delKey cur d).isSome := by
  induction d with
  | nil => intro cur; simp [mergeGo]
  | cons kv rest ih =>
    intro cur
    obtain ⟨k, v⟩ := kv
    cases hk : k.data with
    | nil => exact absurd hk (h (k, v) (by simp))
    | cons c cs =>
      simp only [mergeGo, hk]
      by_cases hc : c = '-'
      · rw [if_pos hc]
        exact ih (fun kv hkv => h kv (by simp [hkv])) _
      · rw [if_neg hc]
        exact ih (fun kv hkv => h kv (by simp [hkv])) _

/-- A successful merge forces every delta key to be non-empty. -/
lemma mergeGo_keys_ne_nil {β : Type} (delKey : String → String) :
    ∀ (d : List (String × β)) (cur m : StrMap β),
      mergeGo delKey cur d = some m → ∀ kv ∈ d, kv.1.data ≠ [] := by
  intro d
  induction d with
  | nil => intro cur m _ kv hkv; simp at hkv
  | cons kv0 rest ih =>
    intro cur m h kv hkv
    obtain ⟨k, v⟩ := kv0
    cases hk : k.data with
    | nil =>
      simp only [mergeGo, hk] at h
      exact Option.noConfusion h
    | cons c cs =>
      simp only [mergeGo, hk] at h
      rcases List.mem_cons.mp hkv with rfl | hkv'
      · simp [hk]
      · by_cases hc : c = '-'
        · rw [if_pos hc] at h
          exact ih _ _ h kv hkv'
        · rw [if_neg hc] at h
          exact ih _ _ h kv hkv'

/-- A delta containing an empty key makes the merge panic (routes.go:401,
routes.go:410 index `k[0]` out of range), whichever iteration order the Go
map produces. -/
lemma mergeGo_none_of_empty_key {β : Type} (delKey : String → String)
    (d : List (String × β)) (cur : StrMap β)
    (h : ∃ kv ∈ d, kv.1.data = []) : mergeGo delKey cur d = none := by
  cases hm : mergeGo delKey cur d with
  | none => rfl
  | some m =>
    obtain ⟨kv, hkv, hnil⟩ := h
    exact absurd hnil (mergeGo_keys_ne_nil delKey d cur m hm kv hkv)

/-- Re-applying the very same delta enumeration to the result of a
successful merge changes nothing. -/
lemma mergeGo_idem {β : Type} (delKey : String → String)
    {d : List (String × β)} {cur m : StrMap β}
    (h : mergeGo delKey cur d = some m) : mergeGo delKey m d = some m := by
  have hkeys := mergeGo_keys_ne_nil delKey d cur m h
  have hs := mergeGo_isSome_of_keys delKey d hkeys m
  cases hm : mergeGo delKey m d with
  | none => rw [hm] at hs; simp at hs
  | some m2 =>
    congr 1
    funext q
    have h1 := mergeGo_char delKey d cur m h q
    have h2 := mergeGo_char delKey d m m2 hm q
    rw [h2, h1]
    cases hg : (d.filterMap (fun kv => writeAt delKey kv q)).getLast? with
    | none => simp
    | some w => simp

/-! ### Order independence of the merge on conflict-free deltas -/

/-- For the headers merge the deleted key is the dash-prefixed delta key
itself, which can never equal an insertion key, so the conflict-freeness
condition holds for free. -/
lemma noConflict_id {β : Type} (d : List (String × β)) :
    NoConflict (fun k => k) d := by
  intro a _ b _ hda hdb h
  have h' : a.1 = b.1 := h
  rw [← h'] at hdb
  exact hdb hda

/-- `stripDash` is injective on dash-prefixed keys. -/
lemma stripDash_inj_on_dash (k₁ k₂ : String) (h₁ : k₁.data.head? = some '-')
    (h₂ : k₂.data.head? = some '-') (h : stripDash k₁ = stripDash k₂) : k₁ = k₂ := by
  obtain ⟨d₁⟩ := k₁
  obtain ⟨d₂⟩ := k₂
  cases d₁ with
  | nil => exact absurd h₁ (by simp)
  | cons c₁ t₁ =>
    cases d₂ with
    | nil => exact absurd h₂ (by simp)
    | cons c₂ t₂ =>
      have hc₁ : c₁ = '-' := by simpa using h₁
      have hc₂ : c₂ = '-' := by simpa using h₂
      have h' : String.mk t₁ = String.mk t₂ := by simpa [stripDash] using h
      have ht : t₁ = t₂ := congrArg String.data h'
      rw [hc₁, hc₂, ht]

lemma list_len_le_one_mem_eq {α : Type} {l : List α} (h : l.length ≤ 1)
    {x : α} (hx : x ∈ l) : l = [x] := by
  cases l with
  | nil => simp at hx
  | cons a t =>
    cases t with
    | nil =>
      simp at hx
      simp [hx]
    | cons b u => simp at h

lemma perm_eq_of_length_le_one {α : Type} {l₁ l₂ : List α} (p : l₁.Perm l₂)
    (h : l₁.length ≤ 1) : l₁ = l₂ := by
  cases l₁ with
  | nil => exact (p.symm.eq_nil).symm
  | cons a t =>
    cases t with
    | nil => exact (List.perm_singleton.mp p.symm).symm
    | cons b u => simp at h

lemma filterMap_length_le_one {α γ : Type} {f : α → Option γ} {d : List α}
    (hnd : d.Nodup)
    (h : ∀ a ∈ d, ∀ b ∈ d, f a ≠ none → f b ≠ none → a = b) :
    (d.filterMap f).length ≤ 1 := by
  induction d with
  | nil => simp
  | cons a t ih =>
    rw [List.nodup_cons] at hnd
    cases hfa : f a with
    | none =>
      simp only [List.filterMap_cons, hfa]
      exact ih hnd.2 (fun x hx y hy => h x (by simp [hx]) y (by simp [hy]))
    | some w =>
      simp only [List.filterMap_cons, hfa]
      have ht : t.filterMap f = [] := by
        rw [List.filterMap_eq_nil_iff]
        intro b hb
        by_contra hfb
        have hba : b = a := h b (by simp [hb]) a (by simp) hfb (by simp [hfa])
        exact hnd.1 (hba ▸ hb)
      simp [ht]

/-- Two pairs of a delta with equal keys are the same entry. -/
lemma nodup_keys_pair_eq {β : Type} {d : List (String × β)} (hnd : KeysNodup d)
    {a b : String × β} (ha : a ∈ d) (hb : b ∈ d) (hk : a.1 = b.1) : a = b := by
  induction d with
  | nil => simp at ha
  | cons x t ih =>
    rw [KeysNodup, List.map_cons, List.nodup_cons] at hnd
    rcases List.mem_cons.mp ha with rfl | ha'
    · rcases List.mem_cons.mp hb with rfl | hb'
      · rfl
      · exact absurd (hk ▸ List.mem_map_of_mem Prod.fst hb') hnd.1
    · rcases List.mem_cons.mp hb with rfl | hb'
      · exact absurd (hk ▸ List.mem_map_of_mem Prod.fst ha') hnd.1
      · exact ih hnd.2 ha' hb'

lemma writeAt_ne_none_iff {β : Type} (delKey : String → String) (kv : String × β)
    (q : String) :
    writeAt delKey kv q ≠ none ↔
      (kv.1.data.head? = some '-' ∧ delKey kv.1 = q) ∨
      (kv.1.data ≠ [] ∧ kv.1.data.head? ≠ some '-' ∧ kv.1 = q) := by
  obtain ⟨k, v⟩ := kv
  cases hk : k.data with
  | nil => simp [writeAt, hk]
  | cons c cs =>
    by_cases hc : c = '-'
    · subst hc
      by_cases hdel : delKey k = q <;> simp [writeAt, hk, hdel]
    · by_cases hkq : k = q
      · subst hkq
        simp [writeAt, hk, hc]
      · simp [writeAt, hk, hc, hkq]

/-- On a conflict-free delta with distinct non-empty keys, at most one entry
writes at any given map key. -/
lemma writeAt_unique {β : Type} (delKey : String → String)
    (hinj : ∀ k₁ k₂ : String, k₁.data.head? = some '-' → k₂.data.head? = some '-' →
      delKey k₁ = delKey k₂ → k₁ = k₂)
    {d : List (String × β)} (hkeys : KeysNodup d) (hnc : NoConflict delKey d)
    (q : String) :
    ∀ a ∈ d, ∀ b ∈ d, writeAt delKey a q ≠ none → writeAt delKey b q ≠ none → a = b := by
  intro a ha b hb hwa hwb
  rcases (writeAt_ne_none_iff delKey a q).mp hwa with ⟨hda, hqa⟩ | ⟨_, hda, hqa⟩ <;>
    rcases (writeAt_ne_none_iff delKey b q).mp hwb with ⟨hdb, hqb⟩ | ⟨_, hdb, hqb⟩
  · exact nodup_keys_pair_eq hkeys ha hb
      (hinj a.1 b.1 hda hdb (by rw [hqa, hqb]))
  · exact absurd (hqa.trans hqb.symm) (hnc a ha b hb hda hdb)
  · exact absurd (hqb.trans hqa.symm) (hnc b hb a ha hdb hda)
  · exact nodup_keys_pair_eq hkeys ha hb (hqa.trans hqb.symm)

/-- On a conflict-free delta with distinct non-empty keys, the merge result
does not depend on the iteration order of the Go map. -/
lemma mergeGo_perm_eq {β : Type} (delKey : String → String)
    (hinj : ∀ k₁ k₂ : String, k₁.data.head? = some '-' → k₂.data.head? = some '-' →
      delKey k₁ = delKey k₂ → k₁ = k₂)
    {d₁ d₂ : List (String × β)} (p : d₁.Perm d₂)
    (hne : ∀ kv ∈ d₁, kv.1.data ≠ []) (hkeys : KeysNodup d₁)
    (hnc : NoConflict delKey d₁) (cur : StrMap β) :
    mergeGo delKey cur d₁ = mergeGo delKey cur d₂ := by
  have hne₂ : ∀ kv ∈ d₂, kv.1.data ≠ [] := fun kv hkv => hne kv (p.mem_iff.mpr hkv)
  obtain ⟨m₁, hm₁⟩ := Option.isSome_iff_exists.mp (mergeGo_isSome_of_keys delKey d₁ hne cur)
  obtain ⟨m₂, hm₂⟩ := Option.isSome_iff_exists.mp (mergeGo_isSome_of_keys delKey d₂ hne₂ cur)
  rw [hm₁, hm₂]
  congr 1
  funext q
  rw [mergeGo_char delKey d₁ cur m₁ hm₁ q, mergeGo_char delKey d₂ cur m₂ hm₂ q]
  have hlen : (d₁.filterMap (fun kv => writeAt delKey kv q)).length ≤ 1 :=
    filterMap_length_le_one (List.Nodup.of_map Prod.fst hkeys)
      (writeAt_unique delKey hinj hkeys hnc q)
  rw [perm_eq_of_length_le_one (p.filterMap (fun kv => writeAt delKey kv q)) hlen]

/-! ### Small helper lemmas for the claim statements -/

lemma data_ne_nil_of_ne_empty {k : String} (h : k ≠ "") : k.data ≠ [] := by
  intro hd
  apply h
  obtain ⟨d⟩ := k
  have hd' : d = [] := hd
  rw [hd']

lemma writeAt_self_insert {β : Type} (delKey : String → String) (kv : String × β)
    (hne : kv.1.data ≠ []) (hnd : kv.1.data.head? ≠ some '-') :
    writeAt delKey kv kv.1 = some (some kv.2) := by
  obtain ⟨k, v⟩ := kv
  cases hk : k.data with
  | nil => exact absurd hk hne
  | cons c cs =>
    rw [hk] at hnd
    simp at hnd
    simp [writeAt, hk, hnd]

lemma writeAt_self_delete {β : Type} (delKey : String → String) (kv : String × β)
    (hd : kv.1.data.head? = some '-') :
    writeAt delKey kv (delKey kv.1) = some none := by
  obtain ⟨k, v⟩ := kv
  cases hk : k.data with
  | nil => rw [hk] at hd; exact Option.noConfusion hd
  | cons c cs =>
    rw [hk] at hd
    have hc : c = '-' := by simpa using hd
    simp [writeAt, hk, hc]

lemma writeAt_none_of_untouched {β : Type} (delKey : String → String) (kv : String × β)
    (q : String)
    (h1 : kv.1.data.head? = some '-' → delKey kv.1 ≠ q)
    (h2 : kv.1.data.head? ≠ some '-' → kv.1 ≠ q) :
    writeAt delKey kv q = none := by
  obtain ⟨k, v⟩ := kv
  cases hk : k.data with
  | nil => simp [writeAt, hk]
  | cons c cs =>
    by_cases hc : c = '-'
    · have hne := h1 (by rw [hk, hc]; rfl)
      simp [writeAt, hk, hc, hne]
    · have hne := h2 (by rw [hk]; simpa using hc)
      simp [writeAt, hk, hc, hne]

lemma int32cast_eq_self {n : Int} (h0 : 0 ≤ n) (h1 : n < 2147483648) :
    int32cast n = n := by
  unfold int32cast
  omega

/-! ### Claim theorems -/

/-- C2: on a conflict-free delta whose keys are distinct and non-empty
(the domain the spec itself carves out: empty keys panic, cf. routes.go:401,
and a simultaneous `k`/`-k` pair is declared caller responsibility), the
config merge of `patchRoute` succeeds and satisfies the spec postcondition:
every non-deletion entry `(k,v)` ends with `m k = v`, every deletion entry
`-k` ends with `k` absent, and every key targeted by neither form keeps its
current value. -/
theorem C2_config_merge_postcondition (cur : StrMap String) (d : List (String × String))
    (hne : ∀ kv ∈ d, kv.1.data ≠ []) (hnd : KeysNodup d) (hnc : NoConflict stripDash d) :
    ∃ m, configMerge cur d = some m ∧
      (∀ kv ∈ d, kv.1.data.head? ≠ some '-' → m kv.1 = some kv.2) ∧
      (∀ kv ∈ d, kv.1.data.head? = some '-' → m (stripDash kv.1) = none) ∧
      (∀ q, (∀ kv ∈ d, (kv.1.data.head? = some '-' → stripDash kv.1 ≠ q) ∧
          (kv.1.data.head? ≠ some '-' → kv.1 ≠ q)) → m q = cur q) := by
  obtain ⟨m, hm⟩ := Option.isSome_iff_exists.mp (mergeGo_isSome_of_keys stripDash d hne cur)
  have hlen : ∀ q, (d.filterMap (fun kv => writeAt stripDash kv q)).length ≤ 1 :=
    fun q => filterMap_length_le_one (List.Nodup.of_map Prod.fst hnd)
      (writeAt_unique stripDash stripDash_inj_on_dash hnd hnc q)
  refine ⟨m, hm, ?_, ?_, ?_⟩
  · intro kv hkv hnd'
    have hchar := mergeGo_char stripDash d cur m hm kv.1
    have hw := writeAt_self_insert stripDash kv (hne kv hkv) hnd'
    have hmem : some kv.2 ∈ d.filterMap (fun x => writeAt stripDash x kv.1) :=
      List.mem_filterMap.mpr ⟨kv, hkv, hw⟩
    rw [hchar, list_len_le_one_mem_eq (hlen kv.1) hmem]
    rfl
  · intro kv hkv hd'
    have hchar := mergeGo_char stripDash d cur m hm (stripDash kv.1)
    have hw := writeAt_self_delete stripDash kv hd'
    have hmem : (none : Option String) ∈
        d.filterMap (fun x => writeAt stripDash x (stripDash kv.1)) :=
      List.mem_filterMap.mpr ⟨kv, hkv, hw⟩
    rw [hchar, list_len_le_one_mem_eq (hlen (stripDash kv.1)) hmem]
    rfl
  · intro q hq
    have hchar := mergeGo_char stripDash d cur m hm q
    have hnil : d.filterMap (fun x => writeAt stripDash x q) = [] := by
      rw [List.filterMap_eq_nil_iff]
      intro kv hkv
      exact writeAt_none_of_untouched stripDash kv q (hq kv hkv).1 (hq kv hkv).2
    rw [hchar, hnil]
    rfl

/-- Witness for C2 at a concrete input: delta `{a:1, -c:_}` on current map
`{b:2, c:3}`. -/
theorem C2_witness :
    ∃ m, configMerge ((StrMap.empty.insert "b" "2").insert "c" "3")
        [("a", "1"), ("-c", "")] = some m ∧
      m "a" = some "1" ∧ m "c" = none ∧ m "b" = some "2" := by
  obtain ⟨m, hm, hins, hdel, hkeep⟩ :=
    C2_config_merge_postcondition ((StrMap.empty.insert "b" "2").insert "c" "3")
      [("a", "1"), ("-c", "")] (by decide) (by decide) (by decide)
  refine ⟨m, hm, ?_, ?_, ?_⟩
  · exact hins ("a", "1") (by simp) (by decide)
  · exact hdel ("-c", "") (by simp) (by decide)
  · exact hkeep "b" (by decide)

/-- C9: the merge of `patchRoute` is idempotent. On the spec domain
(non-empty distinct keys; for config additionally conflict-freeness, which
the spec leaves to the caller), a second application of the same delta map,
under ANY iteration order the Go map may produce the second time, returns
the once-merged mapping unchanged, for the config merge and for the
headers merge alike. -/
theorem C9_merge_idempotent :
    (∀ (cur : StrMap String) (d d2 : List (String × String)) (m : StrMap String),
      (∀ kv ∈ d, kv.1.data ≠ []) → KeysNodup d → NoConflict stripDash d →
      d.Perm d2 → configMerge cur d = some m → configMerge m d2 = some m) ∧
    (∀ (cur : StrMap (List String)) (d d2 : List (String × List String))
        (m : StrMap (List String)),
      (∀ kv ∈ d, kv.1.data ≠ []) → KeysNodup d →
      d.Perm d2 → headersMerge cur d = some m → headersMerge m d2 = some m) := by
  constructor
  · intro cur d d2 m hne hnd hnc p hm
    have h1 : mergeGo stripDash m d = some m := mergeGo_idem stripDash hm
    have h2 : mergeGo stripDash m d = mergeGo stripDash m d2 :=
      mergeGo_perm_eq stripDash stripDash_inj_on_dash p hne hnd hnc m
    show mergeGo stripDash m d2 = some m
    rw [← h2]
    exact h1
  · intro cur d d2 m hne hnd p hm
    have h1 : mergeGo (fun k => k) m d = some m := mergeGo_idem (fun k => k) hm
    have h2 : mergeGo (fun k => k) m d = mergeGo (fun k => k) m d2 :=
      mergeGo_perm_eq (fun k => k) (fun _ _ _ _ h => h) p hne hnd (noConflict_id d) m
    show mergeGo (fun k => k) m d2 = some m
    rw [← h2]
    exact h1

/-- Witness for C9 at a concrete input: re-applying the delta
`{a:1, -b:_}` to its own merge result leaves the mapping unchanged. -/
theorem C9_witness :
    configMerge ((StrMap.empty.erase "b").insert "a" "1") [("-b", ""), ("a", "1")]
      = some ((StrMap.empty.erase "b").insert "a" "1") :=
  C9_merge_idempotent.1 StrMap.empty [("-b", ""), ("a", "1")] [("-b", ""), ("a", "1")]
    ((StrMap.empty.erase "b").insert "a" "1")
    (by decide) (by decide) (by decide) (List.Perm.refl _) rfl

/-- C10: the merge of `patchRoute` is total exactly on deltas whose keys are
all non-empty byte strings: with only non-empty keys both merges succeed,
while any delta map containing the empty string as a key drives the Go
indexing `k[0]` out of range (routes.go:401 for config, routes.go:410 for
headers), a panic that occurs before the replace call is ever issued. -/
theorem C10_empty_key_totality_guard :
    (∀ (cur : StrMap String) (d : List (String × String)),
      (∀ kv ∈ d, kv.1 ≠ "") → (configMerge cur d).isSome) ∧
    (∀ (cur : StrMap (List String)) (d : List (String × List String)),
      (∀ kv ∈ d, kv.1 ≠ "") → (headersMerge cur d).isSome) ∧
    (∀ (cur : StrMap String) (d : List (String × String)) (v : String),
      ("", v) ∈ d → configMerge cur d = none) ∧
    (∀ rep, patchRoute (.ok exRoute10) (some exDelta10cfg) rep = .panicked) ∧
    (∀ rep, patchRoute (.ok exRoute10) (some exDelta10hdr) rep = .panicked) := by
  refine ⟨?_, ?_, ?_, fun rep => rfl, fun rep => rfl⟩
  · intro cur d h
    exact mergeGo_isSome_of_keys stripDash d
      (fun kv hkv => data_ne_nil_of_ne_empty (h kv hkv)) cur
  · intro cur d h
    exact mergeGo_isSome_of_keys (fun k => k) d
      (fun kv hkv => data_ne_nil_of_ne_empty (h kv hkv)) cur
  · intro cur d v hmem
    exact mergeGo_none_of_empty_key stripDash d cur ⟨("", v), hmem, rfl⟩

/-- Witness for C10 at a concrete input: a delta with the non-empty keys
`a` and `-b` merges successfully. -/
theorem C10_witness :
    (configMerge StrMap.empty [("a", "1"), ("-b", "")]).isSome :=
  C10_empty_key_totality_guard.1 StrMap.empty [("a", "1"), ("-b", "")] (by decide)

/-- C1: evaluation of the code at the failing input. The delta deletes
config key `a` and header key `k`; after the merge the config key `a` IS
absent, but the header key `k` is STILL PRESENT, because the headers
deletion branch (routes.go:411) deletes the unstripped marker key `-k`
instead of the stripped key `k` that the config branch (routes.go:402)
deletes. -/
theorem C1_headers_deletion_keeps_stripped_key :
    ((patchRoute (.ok exRoute1) (some exDelta1) (fun _ => none)).payload.map
        (fun p => (p.headers.getD StrMap.empty) "k") = some (some ["v"])) ∧
    ((patchRoute (.ok exRoute1) (some exDelta1) (fun _ => none)).payload.map
        (fun p => (p.config.getD StrMap.empty) "a") = some none) ∧
    ((patchRoute (.ok exRoute1) (some exDelta1) (fun _ => none)).payload.map
        (fun p => (p.headers.getD StrMap.empty) "-k") = some none) := by
  refine ⟨rfl, rfl, rfl⟩

/-- C5 counterexample: a delta whose timeout pointer is non-nil and holds
zero does NOT leave the fetched timeout of 30 unchanged; the submitted
payload carries timeout 0, because routes.go:432 tests the pointer for nil,
not the value for zero. -/
theorem C5_counterexample_zero_timeout :
    exRoute5c.timeout = some 30 ∧ exDelta5c.timeout = some 0 ∧
    (patchRoute (.ok exRoute5c) (some exDelta5c) (fun _ => none)).payload.map
        Route.timeout = some (some 0) ∧
    (some (0 : Int) ≠ some (30 : Int)) := by
  refine ⟨rfl, rfl, rfl, by decide⟩

/-- C5 amended: in `patchRoute` the string fields (image, format, type) of
the fetched route are overwritten exactly when the delta value is
non-empty, and max-concurrency and memory exactly when the delta value is
positive; the timeout however is overwritten whenever the delta timeout
pointer is non-nil, including a pointer to zero. -/
theorem C5_scalar_field_precedence (r : Route) (d : RouteDelta)
    (rep : Route → Option ReplaceErr) (p : Route) (q : Except String Unit)
    (h : patchRoute (.ok r) (some d) rep = .submitted p q) :
    p.image = (if d.image ≠ "" then d.image else r.image) ∧
    p.format = (if d.format ≠ "" then d.format else r.format) ∧
    p.rtype = (if d.rtype ≠ "" then d.rtype else r.rtype) ∧
    p.maxConcurrency = (if d.maxConcurrency > 0 then d.maxConcurrency
                        else r.maxConcurrency) ∧
    p.memory = (if d.memory > 0 then d.memory else r.memory) ∧
    p.timeout = (match d.timeout with
                 | some t => some t
                 | none => r.timeout) := by
  simp only [patchRoute] at h
  split at h
  · exact absurd h (by simp)
  · split at h
    · exact absurd h (by simp)
    · simp only [submitR, PatchResult.submitted.injEq] at h
      obtain ⟨hp, _⟩ := h
      rw [← hp]
      simp [normalizeRoute]

/-- Witness for C5 at a concrete input: the all-zero delta with nil timeout
pointer leaves the fetched 7-second timeout unchanged. -/
theorem C5_witness : exPayload5w.timeout = some 7 :=
  (C5_scalar_field_precedence exRoute5w exDelta5w (fun _ => none) exPayload5w
    (.ok ()) rfl).2.2.2.2.2

/-- C7: for every successful fetch, the route on which the merge operates
has non-nil config and headers maps (absent maps are replaced by empty
ones, routes.go:389-395) and an empty path (routes.go:397), and whatever
delta is applied, the payload handed to the replace call still carries the
empty path. -/
theorem C7_normalization_and_path_cleared (r : Route) (delta : Option RouteDelta)
    (rep : Route → Option ReplaceErr) :
    (normalizeRoute r).config.isSome ∧
    (normalizeRoute r).headers.isSome ∧
    (normalizeRoute r).path = "" ∧
    (∀ p q, patchRoute (.ok r) delta rep = .submitted p q → p.path = "") := by
  refine ⟨by simp [normalizeRoute], by simp [normalizeRoute], rfl, ?_⟩
  intro p q h
  cases delta with
  | none =>
    simp only [patchRoute, submitR, PatchResult.submitted.injEq] at h
    rw [← h.1]
    rfl
  | some d =>
    simp only [patchRoute] at h
    split at h
    · exact PatchResult.noConfusion h
    · split at h
      · exact PatchResult.noConfusion h
      · simp only [submitR, PatchResult.submitted.injEq] at h
        rw [← h.1]
        rfl

/-- Witness for C7 at a concrete input: the payload submitted for
`exRoute7` (whose fetched path is `/p`) carries the empty path. -/
theorem C7_witness : (normalizeRoute exRoute7).path = "" :=
  (C7_normalization_and_path_cleared exRoute7 none (fun _ => none)).2.2.2
    (normalizeRoute exRoute7) (.ok ()) rfl

/-- C8: when the fetch fails, `patchRoute` returns an error without
issuing the replace call (the result is `errored` for every possible
replace behaviour), and the message classification follows
routes.go:380-386: a not-found error surfaces the remote message behind
the plain `error:` prefix, every other fetch error is wrapped with the
generic `unexpected error:` prefix. -/
theorem C8_fetch_error_aborts (e : FetchErr) (delta : Option RouteDelta)
    (rep : Route → Option ReplaceErr) :
    patchRoute (.error e) delta rep = .errored (fetchErrMsg e) ∧
    (∀ msg, fetchErrMsg (.notFound msg) = "error: " ++ msg) ∧
    (∀ msg, fetchErrMsg (.listDefault msg) = "unexpected error: " ++ msg) ∧
    (∀ msg, fetchErrMsg (.other msg) = "unexpected error: " ++ msg) :=
  ⟨rfl, fun _ => rfl, fun _ => rfl, fun _ => rfl⟩

/-- C3: evaluation of the code at the failing input. With a funcfile whose
full name is `ffimg`, an update called WITH the explicit image argument
`img` submits a delta whose image is `ffimg` (the descriptor overrides the
explicit argument), and an update called WITHOUT an image argument submits
a delta whose image is empty (the descriptor name is not used at all):
routes.go:484 reads `if image != ""` where the comment above it says flags
take precedence. -/
theorem C3_descriptor_overrides_explicit_image :
    ((updatePrep "/p" "img" (.found exFF3) 0 "" none [] "" 0 0).deltaOf.map
        RouteDelta.image = some "ffimg") ∧
    ((updatePrep "/p" "" (.found exFF3) 0 "" none [] "" 0 0).deltaOf.map
        RouteDelta.image = some "") :=
  ⟨rfl, rfl⟩

/-- C4 counterexample: an update with an empty image argument and NO
funcfile returns the image-missing error (routes.go:475-478) even though
the remote route exists and has an image, contrary to the claim that such
an update succeeds. -/
theorem C4_counterexample_update_errors_without_descriptor :
    updateGo "/p" "" .notFound 0 "" none [] "" 0 0 (.ok exRoute4) (fun _ => none)
      = .errored "error: image name is missing or no function file found" := rfl

/-- C4 amended: the create/update asymmetry exists, but only when a
funcfile is present. An update with an empty image argument and ANY
funcfile proceeds and the submitted payload reuses the remote image,
whereas a create whose funcfile yields an empty image name fails with
`function image name is missing` (routes.go:322; the corresponding update
check is commented out at routes.go:503-505). With no funcfile at all,
BOTH create and update fail with the image-missing error. -/
theorem C4_create_update_asymmetry :
    (∀ (f : Funcfile) (r : Route) (rep : Route → Option ReplaceErr),
      (updateGo "/p" "" (.found f) 0 "" none [] "" 0 0 (.ok r) rep).payload.map
          Route.image = some r.image) ∧
    (∀ f : Funcfile, f.fullName = "" →
      createPrep "/p" "" (.found f) 0 "" none "" 0 0
        = .errored "error: function image name is missing") ∧
    (createPrep "/p" "" .notFound 0 "" none "" 0 0
      = .errored "error: image name is missing or no function file found") ∧
    (∀ (fetch : Except FetchErr Route) (rep : Route → Option ReplaceErr),
      updateGo "/p" "" .notFound 0 "" none [] "" 0 0 fetch rep
        = .errored "error: image name is missing or no function file found") := by
  refine ⟨fun f r rep => rfl, ?_, rfl, fun fetch rep => rfl⟩
  intro f h
  simp [createPrep, createFinish, h]

/-- Witness for C4 at a concrete input: create with the empty-name funcfile
fails with the image-missing error. -/
theorem C4_witness :
    createPrep "/p" "" (.found exFF4empty) 0 "" none "" 0 0
      = .errored "error: function image name is missing" :=
  C4_create_update_asymmetry.2.1 exFF4empty rfl

/-- C6: field precedence of `update` for format, max-concurrency and
timeout (routes.go:487-515). With all flags absent or zero, the delta
carries the funcfile values (max-concurrency within int32 range); with
non-empty or positive flags, the flag values win over whatever the
funcfile holds. Concretely, a 45s timeout flag over a 30s funcfile timeout
submits 45 seconds, and no timeout flag over the same funcfile submits
30. -/
theorem C6_flag_descriptor_precedence :
    (∀ (f : Funcfile) (fmt : String) (mc tmo : Int),
      f.format = some fmt → f.maxConcurrency = some mc → f.timeout = some tmo →
      0 ≤ mc → mc < 2147483648 →
      ((updatePrep "/p" "i" (.found f) 0 "" none [] "" 0 0).deltaOf.map
          RouteDelta.format = some fmt ∧
       (updatePrep "/p" "i" (.found f) 0 "" none [] "" 0 0).deltaOf.map
          RouteDelta.maxConcurrency = some mc ∧
       (updatePrep "/p" "i" (.found f) 0 "" none [] "" 0 0).deltaOf.map
          RouteDelta.timeout = some (some (durToSecs tmo)))) ∧
    (∀ (f : Funcfile) (fmt : String) (mc tmo : Int),
      fmt ≠ "" → 0 < mc → mc < 2147483648 → 0 < tmo →
      ((updatePrep "/p" "i" (.found f) 0 "" none [] fmt mc tmo).deltaOf.map
          RouteDelta.format = some fmt ∧
       (updatePrep "/p" "i" (.found f) 0 "" none [] fmt mc tmo).deltaOf.map
          RouteDelta.maxConcurrency = some mc ∧
       (updatePrep "/p" "i" (.found f) 0 "" none [] fmt mc tmo).deltaOf.map
          RouteDelta.timeout = some (some (durToSecs tmo)))) ∧
    ((updatePrep "/p" "i" (.found exFF6) 0 "" none [] "http" 5 45000000000).deltaOf.map
        RouteDelta.timeout = some (some 45)) ∧
    ((updatePrep "/p" "i" (.found exFF6) 0 "" none [] "" 0 0).deltaOf.map
        RouteDelta.timeout = some (some 30)) := by
  refine ⟨?_, ?_, rfl, rfl⟩
  · intro f fmt mc tmo hfmt hmc htmo h0 h1
    refine ⟨?_, ?_, ?_⟩ <;>
      simp [updatePrep, hfmt, hmc, htmo, PrepResult.deltaOf, parseHeaders,
        int32cast_eq_self h0 h1]
  · intro f fmt mc tmo hfmt hmc h1 htmo
    refine ⟨?_, ?_, ?_⟩ <;>
      simp [updatePrep, hfmt, hmc, htmo, PrepResult.deltaOf, parseHeaders,
        int32cast_eq_self (le_of_lt hmc) h1]

/-- Witness for C6 at a concrete input: with no format flag, the funcfile
format `json` is submitted. -/
theorem C6_witness :
    (updatePrep "/p" "i" (.found exFF6) 0 "" none [] "" 0 0).deltaOf.map
        RouteDelta.format = some "json" :=
  (C6_flag_descriptor_precedence.1 exFF6 "json" 2 30000000000 rfl rfl rfl
    (by decide) (by decide)).1
